import Mathlib

/-!
# Verification of the Sensirion driver-adapter protocol layer

Shallow embedding of the wire-protocol / channel layer of the repository:
the field codec (`rx_tx_data.py`), the I2C CRC framer (`i2c_channel.py`),
the SHDLC response validation (`shdlc_channel.py`) and the `MultiChannel`
transaction state machine (`multi_channel.py`).

Bytes are modelled as `Nat` (with explicit `% 256` bounds where they matter),
Python exceptions as `Except`/`Option` results, and Python `None` as `none`.
Float fields (`f`/`d` struct codes) are outside the embedding; all integer,
bool and string/byte-array field codes are covered.
-/

namespace SensirionAdapters

/-! ## Byte-level helpers -/

/-- Python slice `l[a:b]` (for `a ≤ b`): the bytes at indices `a, …, b-1`. -/
def pySlice (l : List Nat) (a b : Nat) : List Nat :=
  (l.drop a).take (b - a)

/-- Big-endian encoding of `n` into `w` bytes (the byte layout produced by
`struct.pack` with byte order `>` for an unsigned value). -/
def toBytesBE : Nat → Nat → List Nat
  | 0, _ => []
  | w + 1, n => toBytesBE w (n / 256) ++ [n % 256]

/-- Big-endian decoding of a byte list into a natural number. -/
def fromBytesBE (l : List Nat) : Nat :=
  l.foldl (fun a b => a * 256 + b) 0

theorem toBytesBE_length (w n : Nat) : (toBytesBE w n).length = w := by
  induction w generalizing n with
  | zero => rfl
  | succ w ih => simp [toBytesBE, ih]

theorem fromBytesBE_append_singleton (l : List Nat) (b : Nat) :
    fromBytesBE (l ++ [b]) = fromBytesBE l * 256 + b := by
  simp [fromBytesBE, List.foldl_append]

theorem fromBytesBE_toBytesBE (w n : Nat) (h : n < 256 ^ w) :
    fromBytesBE (toBytesBE w n) = n := by
  induction w generalizing n with
  | zero =>
    simp [toBytesBE, fromBytesBE]
    omega
  | succ w ih =>
    rw [toBytesBE, fromBytesBE_append_singleton, ih (n / 256) ?_]
    · omega
    · have h2 : n < 256 * 256 ^ w := by
        have : 256 ^ (w + 1) = 256 * 256 ^ w := by ring
        omega
      exact Nat.div_lt_of_lt_mul h2

/-! ## Field codec (`rx_tx_data.py`)

A struct-format descriptor such as `>B8s` or `>HH` is embedded as a big
endian byte order (the only one used in the repository) plus a list of
fields; each field is an optional repeat count (the `\d*` prefix of
`field_match`) together with a field code. -/

/-- The struct field codes matched by `RxData.field_match`
(`h|H|b|B|i|I|?|s|q|Q`; the float codes `f`/`d` are outside the embedding). -/
inductive FCode where
  | i8 | u8 | i16 | u16 | i32 | u32 | i64 | u64
  | boolc               -- struct code '?'
  | sc                  -- struct code 's' (byte string)
deriving DecidableEq, Repr

/-- `struct.calcsize` of a single field code. -/
def fcodeSize : FCode → Nat
  | .i8 => 1 | .u8 => 1 | .i16 => 2 | .u16 => 2
  | .i32 => 4 | .u32 => 4 | .i64 => 8 | .u64 => 8
  | .boolc => 1 | .sc => 1

/-- Whether the code is a signed integer code (`b`, `h`, `i`, `q`). -/
def fcodeSigned : FCode → Bool
  | .i8 => true | .i16 => true | .i32 => true | .i64 => true
  | _ => false

/-- `struct.pack` of one integer value into `w` big-endian bytes
(twos-complement encoding for negative values). -/
def encodeInt (w : Nat) (v : Int) : List Nat :=
  toBytesBE w (v % (2 ^ (8 * w) : Int)).toNat

/-- `struct.unpack` of `w` big-endian bytes into an integer
(twos-complement interpretation when `signed`). -/
def decodeInt (signed : Bool) (w : Nat) (bytes : List Nat) : Int :=
  let n := fromBytesBE bytes
  if signed ∧ 2 ^ (8 * w - 1) ≤ n then (n : Int) - 2 ^ (8 * w) else (n : Int)

/-- The argument values `struct.pack` accepts for a field code without
raising, restricted to those that round trip (for `'?'` Python accepts any
integer but decodes to a bool, so only `0`/`1` round trip; a Python `int` is
never a valid argument for `'s'`, which needs a `bytes` object). -/
def wellTypedB (c : FCode) (v : Int) : Bool :=
  match c with
  | .boolc => v == 0 || v == 1
  | .sc => false
  | c =>
    if fcodeSigned c then
      decide (-(2 ^ (8 * fcodeSize c - 1) : Int) ≤ v ∧ v < 2 ^ (8 * fcodeSize c - 1))
    else
      decide (0 ≤ v ∧ v < 2 ^ (8 * fcodeSize c))

/-- The bytes `struct.pack` emits for one field holding an integer value
(`sc` is unreachable: an integer is never well typed for `'s'`). -/
def packField (c : FCode) (v : Int) : List Nat :=
  match c with
  | .boolc => [if v == 0 then 0 else 1]
  | .sc => []
  | c => encodeInt (fcodeSize c) v

/-- The integer value `struct.unpack` yields for one fixed field
(`True`/`False` for `'?'` are modelled as `1`/`0`). -/
def unpackFieldVal (c : FCode) (bytes : List Nat) : Int :=
  match c with
  | .boolc => if fromBytesBE bytes == 0 then 0 else 1
  | .sc => 0
  | c => decodeInt (fcodeSigned c) (fcodeSize c) bytes

theorem packField_length (c : FCode) (v : Int) (h : wellTypedB c v = true) :
    (packField c v).length = fcodeSize c := by
  cases c <;>
    simp [packField, encodeInt, toBytesBE_length, fcodeSize, wellTypedB] at h ⊢

theorem intPow_eq_natPow (w : Nat) : ((2 : Int) ^ (8 * w)) = ((256 ^ w : Nat) : Int) := by
  push_cast
  rw [pow_mul]
  norm_num

theorem decodeInt_encodeInt_unsigned (w : Nat) (v : Int)
    (h0 : 0 ≤ v) (h1 : v < 2 ^ (8 * w)) :
    decodeInt false w (encodeInt w v) = v := by
  have hpow := intPow_eq_natPow w
  have hm : (v % (2 ^ (8 * w) : Int)) = v := Int.emod_eq_of_lt h0 h1
  have hlt : (v % (2 ^ (8 * w) : Int)).toNat < 256 ^ w := by
    rw [hm]; omega
  simp only [decodeInt, encodeInt, fromBytesBE_toBytesBE _ _ hlt]
  simp [hm, Int.toNat_of_nonneg h0]

theorem decodeInt_encodeInt_signed (w : Nat) (hw : 1 ≤ w) (v : Int)
    (h0 : -(2 ^ (8 * w - 1) : Int) ≤ v) (h1 : v < 2 ^ (8 * w - 1)) :
    decodeInt true w (encodeInt w v) = v := by
  have hpow := intPow_eq_natPow w
  have hpowH : (((2 ^ (8 * w - 1) : Nat)) : Int) = (2 : Int) ^ (8 * w - 1) := by
    push_cast; ring
  have hsplit : (2 ^ (8 * w) : Int) = 2 ^ (8 * w - 1) * 2 := by
    have h8 : 8 * w = (8 * w - 1) + 1 := by omega
    conv_lhs => rw [h8]
    rw [pow_succ]
  have hm0 : (0 : Int) < 2 ^ (8 * w) := by positivity
  have hv : (v % (2 ^ (8 * w) : Int)) = if 0 ≤ v then v else v + 2 ^ (8 * w) := by
    split
    · exact Int.emod_eq_of_lt (by assumption) (by omega)
    · have heq : (v + (2 ^ (8 * w) : Int) * 1) % (2 ^ (8 * w) : Int) = v % 2 ^ (8 * w) :=
        Int.add_mul_emod_self_left v (2 ^ (8 * w)) 1
      rw [mul_one] at heq
      rw [← heq]
      exact Int.emod_eq_of_lt (by omega) (by omega)
  have hlt : (v % (2 ^ (8 * w) : Int)).toNat < 256 ^ w := by
    rw [hv]
    split <;> omega
  simp only [decodeInt, encodeInt, fromBytesBE_toBytesBE _ _ hlt, true_and]
  rw [hv]
  by_cases hv0 : 0 ≤ v
  · rw [if_pos hv0]
    rw [if_neg ?_]
    · omega
    · omega
  · rw [if_neg hv0]
    rw [if_pos ?_]
    · omega
    · omega

theorem unpackFieldVal_packField (c : FCode) (v : Int)
    (h : wellTypedB c v = true) :
    unpackFieldVal c (packField c v) = v := by
  cases c
  case boolc =>
    simp only [wellTypedB, Bool.or_eq_true, beq_iff_eq] at h
    rcases h with h | h <;> simp [h, packField, unpackFieldVal, fromBytesBE]
  case sc => simp [wellTypedB] at h
  case i8 =>
    simp [wellTypedB, fcodeSigned, fcodeSize] at h
    exact decodeInt_encodeInt_signed 1 (by norm_num) v (by omega) (by omega)
  case i16 =>
    simp [wellTypedB, fcodeSigned, fcodeSize] at h
    exact decodeInt_encodeInt_signed 2 (by norm_num) v (by omega) (by omega)
  case i32 =>
    simp [wellTypedB, fcodeSigned, fcodeSize] at h
    exact decodeInt_encodeInt_signed 4 (by norm_num) v (by omega) (by omega)
  case i64 =>
    simp [wellTypedB, fcodeSigned, fcodeSize] at h
    exact decodeInt_encodeInt_signed 8 (by norm_num) v (by omega) (by omega)
  case u8 =>
    simp [wellTypedB, fcodeSigned, fcodeSize] at h
    exact decodeInt_encodeInt_unsigned 1 v (by omega) (by omega)
  case u16 =>
    simp [wellTypedB, fcodeSigned, fcodeSize] at h
    exact decodeInt_encodeInt_unsigned 2 v (by omega) (by omega)
  case u32 =>
    simp [wellTypedB, fcodeSigned, fcodeSize] at h
    exact decodeInt_encodeInt_unsigned 4 v (by omega) (by omega)
  case u64 =>
    simp [wellTypedB, fcodeSigned, fcodeSize] at h
    exact decodeInt_encodeInt_unsigned 8 v (by omega) (by omega)

/-! ## Descriptors and `struct.pack` / `RxData.unpack` -/

/-- One parsed field of a struct descriptor, as matched by
`RxData.field_match`: the optional decimal repeat count (`length` group,
`none` when no digits precede the code) and the field code. -/
structure Descr where
  fields : List (Option Nat × FCode)
deriving DecidableEq, Repr

/-- `struct.calcsize` of a descriptor with byte order `>` (no padding):
the sum of the field widths, a count-prefixed field contributing
`count * elementSize` bytes.  This is `RxData._rx_length`. -/
def rx_length (d : Descr) : Nat :=
  (d.fields.map (fun f => f.1.getD 1 * fcodeSize f.2)).sum

/-- `struct.pack` over a fixed-width descriptor (every field a single code
character) applied to one integer argument per field; `none` models the
`struct.error` raised on an argument-count mismatch or an out-of-range
value. -/
def structPackFixed : List FCode → List Int → Option (List Nat)
  | [], [] => some []
  | c :: cs, v :: vs =>
    if wellTypedB c v then
      (structPackFixed cs vs).map (fun bs => packField c v ++ bs)
    else
      none
  | _, _ => none

/-- `TxData.pack` for a fixed-width descriptor: the command id is packed
first (`data_to_pack = [self._cmd_id] + ...`), followed by the scalar
arguments, all through `struct.pack`. -/
def tx_pack (cmdField : FCode) (argFields : List FCode)
    (cmdId : Int) (args : List Int) : Option (List Nat) :=
  structPackFixed (cmdField :: argFields) (cmdId :: args)

/-- One entry of the tuple returned by `RxData.unpack_dynamic_sized`: a
scalar (fixed field, or a variable field folded by `convert_to_int`), an
array of scalars (count-prefixed non-string field), or a decoded string
(count-prefixed `s` field, kept as its byte values). -/
inductive DynVal where
  | int (v : Int)
  | arr (vs : List Int)
  | str (bytes : List Nat)
deriving DecidableEq, Repr

/-- `array_to_integer` of `rx_tx_data.py`:
`reduce(lambda x, y: (x << element_bit_width) | y, data, 0)`. -/
def array_to_integer (elementBitWidth : Nat) (data : List Int) : Int :=
  data.foldl (fun x y => Int.lor (x * 2 ^ elementBitWidth) y) 0

/-- The scan of `unpack_dynamic_sized` over the byte range of a variable field
(`for i in range(data_pos, min(data_pos + elem_size * int(length), len(data)))`):
count the bytes, stopping early at a zero byte when the field is a string. -/
def scanCount (isString : Bool) : List Nat → Nat
  | [] => 0
  | b :: bs => if isString && b == 0 then 0 else 1 + scanCount isString bs

/-- Decode `k` consecutive elements of size `esz` from `raw`
(`struct.unpack_from` with an explicit repeat count). -/
def chunkVals (c : FCode) (esz : Nat) : Nat → List Nat → List Int
  | 0, _ => []
  | k + 1, raw => unpackFieldVal c (raw.take esz) :: chunkVals c esz k (raw.drop esz)

/-- The loop of `RxData.unpack_dynamic_sized`: walk the parsed fields while
tracking the absolute read position `pos` (`data_pos`).  After **every**
field the source advances the cursor by `elem_size` only
(`data_pos += elem_size`), also after a count-prefixed field that consumed
several elements.  `none` models a `struct.error`/`TypeError` escaping the
loop. -/
def unpackDynAux (convert : Bool) (data : List Nat) :
    List (Option Nat × FCode) → Nat → Option (List DynVal)
  | [], _ => some []
  | (cnt, c) :: rest, pos =>
    let esz := fcodeSize c
    match cnt with
    | none =>
      -- no length prefix: one fixed-width element via struct.unpack_from
      if pos + esz ≤ data.length then
        let v : DynVal :=
          if c == .sc then .str (pySlice data pos (pos + esz))
          else .int (unpackFieldVal c (pySlice data pos (pos + esz)))
        (unpackDynAux convert data rest (pos + esz)).map (fun tl => v :: tl)
      else
        none
    | some len =>
      let isString := c == .sc
      let fieldLen := scanCount isString ((data.drop pos).take (esz * len))
      let k := fieldLen / esz
      if pos + k * esz ≤ data.length then
        let raw := (data.drop pos).take (k * esz)
        let v? : Option DynVal :=
          if convert then
            -- array_to_integer over the unpacked tuple; for a string field
            -- the tuple holds a bytes object and Python raises a TypeError
            if isString then none
            else some (.int (array_to_integer (esz * 8) (chunkVals c esz k raw)))
          else if isString then some (.str raw)
          else some (.arr (chunkVals c esz k raw))
        v?.bind (fun v =>
          (unpackDynAux convert data rest (pos + esz)).map (fun tl => v :: tl))
      else
        none

/-- `RxData.unpack_dynamic_sized`. -/
def unpack_dynamic_sized (d : Descr) (convert : Bool) (data : List Nat) :
    Option (List DynVal) :=
  unpackDynAux convert data d.fields 0

/-- `RxData.unpack`: `_contains_array` is `field_match.search(descriptor)`,
which succeeds whenever the descriptor has at least one field, so any
non-empty descriptor is decoded by `unpack_dynamic_sized`; the bare
`struct.unpack` path remains only for a field-less descriptor, where it
demands an exactly empty buffer. -/
def rx_unpack (d : Descr) (convert : Bool) (data : List Nat) :
    Option (List DynVal) :=
  if d.fields.isEmpty then
    if data.isEmpty then some [] else none
  else
    unpack_dynamic_sized d convert data

/-- A fixed-width descriptor: one count-less field per code. -/
def fixedDescr (cs : List FCode) : Descr :=
  ⟨cs.map (fun c => (none, c))⟩

theorem wellTypedB_ne_sc (c : FCode) (v : Int) (h : wellTypedB c v = true) :
    c ≠ .sc := by
  rintro rfl
  simp [wellTypedB] at h

/-- Decoding the bytes of a fixed-width `struct.pack` field by field (as the
dynamic decoder does) recovers exactly the packed values, at any offset
`pre.length` into a larger buffer. -/
theorem unpackDynAux_structPackFixed :
    ∀ (cs : List FCode) (vs : List Int) (bs pre : List Nat),
      structPackFixed cs vs = some bs →
      unpackDynAux false (pre ++ bs) (List.map (fun c => ((none : Option Nat), c)) cs)
          pre.length = some (vs.map DynVal.int) := by
  intro cs
  induction cs with
  | nil =>
    intro vs bs pre h
    cases vs with
    | nil =>
      simp only [structPackFixed, Option.some_inj] at h
      subst h
      simp [unpackDynAux]
    | cons v vs => simp [structPackFixed] at h
  | cons c cs ih =>
    intro vs bs pre h
    cases vs with
    | nil => simp [structPackFixed] at h
    | cons v vs =>
      rw [structPackFixed] at h
      by_cases hwt : wellTypedB c v = true
      · rw [if_pos hwt] at h
        cases hrec : structPackFixed cs vs with
        | none => rw [hrec] at h; simp at h
        | some bs' =>
          rw [hrec] at h
          simp only [Option.map_some', Option.some_inj] at h
          subst h
          have hlen : (packField c v).length = fcodeSize c := packField_length c v hwt
          have hsc : (c == FCode.sc) = false := by
            have := wellTypedB_ne_sc c v hwt
            simpa using this
          rw [List.map_cons, unpackDynAux]
          have hguard : pre.length + fcodeSize c ≤ (pre ++ (packField c v ++ bs')).length := by
            simp [List.length_append, hlen]
          rw [if_pos hguard]
          have hslice : pySlice (pre ++ (packField c v ++ bs')) pre.length
              (pre.length + fcodeSize c) = packField c v := by
            unfold pySlice
            rw [List.drop_left, Nat.add_sub_cancel_left, ← hlen, List.take_left]
          simp only [hsc, Bool.false_eq_true, if_false, hslice,
            unpackFieldVal_packField c v hwt]
          have hIH := ih vs bs' (pre ++ packField c v) hrec
          rw [← List.append_assoc]
          have hposlen : pre.length + fcodeSize c = (pre ++ packField c v).length := by
            simp [List.length_append, hlen]
          rw [hposlen, hIH]
          simp
      · rw [if_neg hwt] at h
        simp at h

/-! ## CRC framer (`i2c_channel.py`) -/

/-- The payload of the `I2cChecksumError` raised by `strip_and_check_crc`:
`I2cChecksumError(received_crc, expected_crc, data)`. -/
structure ChecksumErr where
  received : Nat
  expected : Nat
  data : List Nat
deriving DecidableEq, Repr

/-- The loop of `I2cChannel.build_tx_data`: append every payload byte and,
when a crc calculator is present, `crc(tx_data[i-1:i+1])` after every odd
index `i`. -/
def buildTxAux (crc : Option (List Nat → Nat)) (txData : List Nat) :
    List Nat → Nat → List Nat
  | [], _ => []
  | b :: rest, i =>
    match crc with
    | some f =>
      if i % 2 = 1 then b :: f (pySlice txData (i - 1) (i + 1)) :: buildTxAux crc txData rest (i + 1)
      else b :: buildTxAux crc txData rest (i + 1)
    | none => b :: buildTxAux crc txData rest (i + 1)

/-- `I2cChannel.build_tx_data(tx_data, cmd_width, crc)`: `none` models the
`None` returned for an empty transmission (`if not tx_data: return None`);
otherwise the first `cmd_width` command bytes pass through unmodified and
the remaining payload is CRC-framed. -/
def build_tx_data (txData : List Nat) (cmdWidth : Nat)
    (crc : Option (List Nat → Nat)) : Option (List Nat) :=
  if txData.isEmpty then none
  else
    some (txData.take cmdWidth ++
      buildTxAux crc (txData.drop cmdWidth) (txData.drop cmdWidth) 0)

/-- The loop of `I2cChannel.strip_and_check_crc`: walk the buffer with its
index; every byte at an index `i` with `i % 3 == 2` is a received checksum,
compared against `crc(data[i-2:i])`; the other bytes are collected. -/
def stripAux (crc : List Nat → Nat) (data : List Nat) :
    List Nat → Nat → List Nat → Except ChecksumErr (List Nat)
  | [], _, acc => .ok acc
  | b :: rest, i, acc =>
    if i % 3 = 2 then
      let expected := crc (pySlice data (i - 2) i)
      if b = expected then stripAux crc data rest (i + 1) acc
      else .error ⟨b, expected, data⟩
    else
      stripAux crc data rest (i + 1) (acc ++ [b])

/-- `I2cChannel.strip_and_check_crc(data, crc)`: strips every inserted
checksum byte after validating it; `.ok none` models the `None` returned
when no data bytes remain, `.error` the raised `I2cChecksumError`. -/
def strip_and_check_crc (data : List Nat) (crc : List Nat → Nat) :
    Except ChecksumErr (Option (List Nat)) :=
  (stripAux crc data data 0 []).map (fun l => if l.isEmpty then none else some l)

/-- The first index `i` (at or after the running index) with `i % 3 == 2`
whose byte does not equal the checksum of the two preceding bytes; walks the
remaining buffer exactly as `stripAux` does. -/
def firstMismatchAux (crc : List Nat → Nat) (data : List Nat) :
    List Nat → Nat → Option Nat
  | [], _ => none
  | b :: rest, i =>
    if i % 3 = 2 ∧ b ≠ crc (pySlice data (i - 2) i) then some i
    else firstMismatchAux crc data rest (i + 1)

/-- The bytes of the buffer at indices `i` with `i % 3 ≠ 2` (the data bytes,
with the inserted checksum bytes removed). -/
def nonCheckAux : List Nat → Nat → List Nat
  | [], _ => []
  | b :: rest, i =>
    if i % 3 = 2 then nonCheckAux rest (i + 1) else b :: nonCheckAux rest (i + 1)

/-- The first mismatching checksum position of a buffer. -/
def firstMismatch (data : List Nat) (crc : List Nat → Nat) : Option Nat :=
  firstMismatchAux crc data data 0

/-- The buffer with its checksum positions removed. -/
def nonCheckBytes (data : List Nat) : List Nat :=
  nonCheckAux data 0

/-- The expected receive length computed by `I2cChannel.write_read`
(lines 41–45): `None` when no response descriptor is given, the
static descriptor length scaled by `3 // 2` when a crc calculator is
configured, the unscaled static length otherwise. -/
def i2c_expected_rx_length (response : Option Nat) (crcPresent : Bool) :
    Option Nat :=
  match response with
  | none => none
  | some rxLength => if crcPresent then some (3 * rxLength / 2) else some rxLength

/-- The error handling of `I2cChannel.write_read` (lines 53–59): the
physical exchange — which also deframes and decodes the response through
`TxRxRequest.interpret_response` — runs inside a `try`; on failure the
exception is re-raised unless `ignore_errors` is set, in which case the
result is `None`. -/
def i2c_write_read_result {ε ρ : Type} (execResult : Except ε (Option ρ))
    (ignoreErrors : Bool) : Except ε (Option ρ) :=
  match execResult with
  | .ok r => .ok r
  | .error e => if ignoreErrors then .ok none else .error e

/-! ## CRC framer lemmas -/

/-- Chunked view of the `build_tx_data` loop: every pair of payload bytes is
followed by the checksum of that pair, a trailing odd byte passes alone. -/
def crcFrame (f : List Nat → Nat) : List Nat → List Nat
  | [] => []
  | [a] => [a]
  | a :: b :: rest => a :: b :: f [a, b] :: crcFrame f rest

theorem twoStepRecursion {motive : List Nat → Prop} (h0 : motive [])
    (h1 : ∀ a, motive [a])
    (h2 : ∀ a b l, motive l → motive (a :: b :: l)) : ∀ l, motive l := by
  have H : ∀ n l, l.length ≤ n → motive l := by
    intro n
    induction n with
    | zero =>
      intro l hl
      cases l with
      | nil => exact h0
      | cons a l => simp at hl
    | succ n ih =>
      intro l hl
      cases l with
      | nil => exact h0
      | cons a l =>
        cases l with
        | nil => exact h1 a
        | cons b l =>
          refine h2 a b l (ih l ?_)
          simp at hl
          omega
  intro l
  exact H l.length l le_rfl

theorem getElem?_of_drop : ∀ (l : List Nat) (i : Nat) (b : Nat) (rest : List Nat),
    l.drop i = b :: rest → l[i]? = some b := by
  intro l i
  induction i generalizing l with
  | zero =>
    intro b rest h
    simp only [List.drop_zero] at h
    subst h
    simp
  | succ i ih =>
    intro b rest h
    cases l with
    | nil => simp at h
    | cons a l =>
      rw [List.drop_succ_cons] at h
      simpa using ih l b rest h

theorem buildTxAux_eq_crcFrame (f : List Nat → Nat) :
    ∀ (p : List Nat) (full : List Nat) (i : Nat), i % 2 = 0 →
      full.drop i = p → buildTxAux (some f) full p i = crcFrame f p := by
  refine twoStepRecursion ?_ ?_ ?_
  · intro full i h1 h2
    rfl
  · intro a full i h1 h2
    show buildTxAux (some f) full [a] i = [a]
    rw [buildTxAux, if_neg (by omega), buildTxAux]
  · intro a b rest ih full i h1 h2
    have hslice : pySlice full ((i + 1) - 1) ((i + 1) + 1) = [a, b] := by
      unfold pySlice
      have h3 : (i + 1) - 1 = i := by omega
      rw [h3, h2]
      have h4 : i + 1 + 1 - i = 2 := by omega
      rw [h4]
      rfl
    have hodd : (i + 1) % 2 = 1 := by omega
    have hdrop : full.drop (i + 2) = rest := by
      have h6 := List.drop_drop 2 i full
      rw [h2] at h6
      simpa using h6.symm
    rw [buildTxAux]
    rw [if_neg (by omega)]
    rw [buildTxAux]
    rw [if_pos hodd, hslice]
    rw [ih full (i + 2) (by omega) hdrop]
    rfl

/-- `build_tx_data` with command width `0` produces the chunked CRC frame of
the payload (for a non-empty payload). -/
theorem build_tx_data_eq_crcFrame (payload : List Nat) (f : List Nat → Nat)
    (h : payload ≠ []) :
    build_tx_data payload 0 (some f) = some (crcFrame f payload) := by
  unfold build_tx_data
  rw [if_neg (by simpa using h)]
  rw [List.take_zero, List.drop_zero, List.nil_append]
  congr 1
  have h0 : payload.drop 0 = payload := List.drop_zero payload
  exact buildTxAux_eq_crcFrame f payload payload 0 (by omega) h0

/-- Deframing a chunked CRC frame succeeds and recovers the payload, for any
start index divisible by 3 and any accumulator. -/
theorem stripAux_crcFrame (f : List Nat → Nat) :
    ∀ (p : List Nat) (full : List Nat) (i : Nat) (acc : List Nat), i % 3 = 0 →
      full.drop i = crcFrame f p →
      stripAux f full (crcFrame f p) i acc = .ok (acc ++ p) := by
  refine twoStepRecursion ?_ ?_ ?_
  · intro full i acc h1 h2
    show stripAux f full [] i acc = .ok (acc ++ [])
    rw [stripAux]
    simp
  · intro a full i acc h1 h2
    show stripAux f full [a] i acc = .ok (acc ++ [a])
    rw [stripAux, if_neg (by omega), stripAux]
  · intro a b rest ih full i acc h1 h2
    simp only [crcFrame] at h2 ⊢
    have hslice : pySlice full ((i + 2) - 2) (i + 2) = [a, b] := by
      unfold pySlice
      have h3 : (i + 2) - 2 = i := by omega
      rw [h3, h2]
      have h4 : i + 2 - i = 2 := by omega
      rw [h4]
      rfl
    have hdrop : full.drop (i + 3) = crcFrame f rest := by
      have h6 := List.drop_drop 3 i full
      rw [h2] at h6
      simpa using h6.symm
    rw [stripAux, if_neg (by omega)]
    rw [stripAux, if_neg (by omega)]
    rw [stripAux, if_pos (by omega), hslice]
    rw [if_pos rfl]
    have h5 : i + 1 + 1 + 1 = i + 3 := by omega
    rw [h5, ih full (i + 3) (acc ++ [a] ++ [b]) (by omega) hdrop]
    simp

/-- Characterization of the `strip_and_check_crc` loop: it fails at the
first mismatching checksum position, reporting that byte, the recomputed
checksum and the whole buffer; with no mismatch it collects the non-checksum
bytes. -/
theorem stripAux_characterization (crc : List Nat → Nat) (data : List Nat) :
    ∀ (rem : List Nat) (i : Nat) (acc : List Nat), data.drop i = rem →
      stripAux crc data rem i acc =
        match firstMismatchAux crc data rem i with
        | some j => .error ⟨data.getD j 0, crc (pySlice data (j - 2) j), data⟩
        | none => .ok (acc ++ nonCheckAux rem i) := by
  intro rem
  induction rem with
  | nil =>
    intro i acc h
    simp [stripAux, firstMismatchAux, nonCheckAux]
  | cons b rest ih =>
    intro i acc h
    have hdrop : data.drop (i + 1) = rest := by
      have h6 := List.drop_drop 1 i data
      rw [h] at h6
      simpa using h6.symm
    by_cases h3 : i % 3 = 2
    · by_cases hb : b = crc (pySlice data (i - 2) i)
      · rw [stripAux, if_pos h3, if_pos hb]
        rw [firstMismatchAux, if_neg (by simp [hb])]
        rw [nonCheckAux, if_pos h3]
        exact ih (i + 1) acc hdrop
      · rw [stripAux, if_pos h3, if_neg hb]
        rw [firstMismatchAux, if_pos ⟨h3, hb⟩]
        simp [getElem?_of_drop data i b rest h]
    · rw [stripAux, if_neg h3]
      rw [firstMismatchAux, if_neg (by simp [h3])]
      rw [nonCheckAux, if_neg h3]
      rw [ih (i + 1) (acc ++ [b]) hdrop]
      cases firstMismatchAux crc data rest (i + 1) with
      | none => simp
      | some j => simp

/-! ## SHDLC channel (`shdlc_channel.py`) -/

/-- The errors `ShdlcChannel.write_read` can raise after the transceive:
the two `ShdlcResponseError`s (each message names the received and the sent
value), the `ShdlcDeviceError` carrying the error code of the device, and a
decoding failure escaping `unpack_dynamic_sized`. -/
inductive ShdlcErr where
  | responseMismatchAddr (received sent : Nat)
  | responseMismatchCmd (received sent : Nat)
  | deviceError (code : Nat)
  | unpackError
deriving DecidableEq, Repr

/-- What `ShdlcChannel.write_read` returns on success: the raw response
bytes when no response descriptor was supplied, the decoded tuple
otherwise. -/
inductive ShdlcResult where
  | raw (bytes : List Nat)
  | decoded (vals : List DynVal)
deriving DecidableEq, Repr

set_option linter.unusedVariables false in
/-- `ShdlcChannel.write_read` from the point where the transceiver has
returned `(rx_addr, rx_cmd, rx_state, rx_data)` (lines 101–128): validate
the echoed address, then the echoed command, then the status byte — its top
bit (`rx_state & 0x80`) is only logged, its low seven bits
(`rx_state & 0x7F`) raise a `ShdlcDeviceError` when non-zero — and finally
decode through `unpack_dynamic_sized` when a response descriptor is
present.  The `ignoreErrors` parameter is accepted but, exactly as in the
source, never read: every error propagates. -/
def shdlc_write_read (shdlcAddr cmdId : Nat) (ignoreErrors : Bool)
    (rxAddr rxCmd rxState : Nat) (rxData : List Nat)
    (response : Option (Descr × Bool)) : Except ShdlcErr ShdlcResult :=
  if rxAddr ≠ shdlcAddr then
    .error (.responseMismatchAddr rxAddr shdlcAddr)
  else if rxCmd ≠ cmdId then
    .error (.responseMismatchCmd rxCmd cmdId)
  else
    -- error_state := rx_state & 0x80 ≠ 0 is computed and logged only
    let errorCode := rxState &&& 0x7F
    if errorCode ≠ 0 then
      .error (.deviceError errorCode)
    else
      match response with
      | some (d, convert) =>
        match unpack_dynamic_sized d convert rxData with
        | some vals => .ok (.decoded vals)
        | none => .error .unpackError
      | none => .ok (.raw rxData)

/-! ## MultiChannel (`multi_channel.py`) -/

/-- The transaction-relevant state of a `MultiChannel`: the channel tuple,
the `_active_channel` pointer and the `_channel_iterator` (modelled as the
not-yet-consumed suffix of the channel list; `none` is the cleared
iterator). -/
structure MultiChannel (α : Type) where
  channels : List α
  activeChannel : Option α
  channelIterator : Option (List α)
deriving DecidableEq, Repr

/-- `MultiChannel.__init__`: both transaction fields start cleared. -/
def mkMultiChannel {α : Type} (channels : List α) : MultiChannel α :=
  ⟨channels, none, none⟩

/-- `MultiChannel.__enter__`: `self._channel_iterator = iter(self._channels)`. -/
def mcEnter {α : Type} (m : MultiChannel α) : MultiChannel α :=
  { m with channelIterator := some m.channels }

/-- The usage errors of `MultiChannel.write_read`: `next` on an exhausted
iterator raises `StopIteration`; calling outside a transaction finds
`_channel_iterator = None` and raises a `TypeError`. -/
inductive McErr where
  | stopIteration
  | noTransaction
deriving DecidableEq, Repr

/-- `MultiChannel.write_read`: `self._active_channel =
next(self._channel_iterator)`, then the call is dispatched to that channel
(returned here so the dispatch target is observable). -/
def mcWriteRead {α : Type} (m : MultiChannel α) :
    Except McErr (MultiChannel α × α) :=
  match m.channelIterator with
  | none => .error .noTransaction
  | some [] => .error .stopIteration
  | some (c :: rest) =>
    .ok ({ m with activeChannel := some c, channelIterator := some rest }, c)

/-- `MultiChannel.__exit__`: clears the iterator and the active-channel
pointer unconditionally and returns `exc_type is None`, so an exception
raised inside the transaction is not suppressed (returning `False`
re-raises the original exception). -/
def mcExit {α : Type} (m : MultiChannel α) (excOccurred : Bool) :
    MultiChannel α × Bool :=
  ({ m with activeChannel := none, channelIterator := none }, !excOccurred)

/-- `n` successive `write_read` calls, collecting the dispatch targets in
call order. -/
def mcCalls {α : Type} (m : MultiChannel α) :
    Nat → Except McErr (MultiChannel α × List α)
  | 0 => .ok (m, [])
  | n + 1 =>
    match mcWriteRead m with
    | .error e => .error e
    | .ok (m1, c) =>
      match mcCalls m1 n with
      | .error e => .error e
      | .ok (m2, cs) => .ok (m2, c :: cs)

/-- `MultiChannel.strip_protocol`: calls `strip_protocol(data)` on the
active sub-channel but has no `return` statement, so the sub-channel
result is discarded and the method always returns `None`. -/
def mc_strip_protocol (subStrip : List Nat → Option (List Nat))
    (data : List Nat) : Option (List Nat) :=
  let _ := subStrip data
  none

/-! ## MultiChannel lemmas -/

theorem mcCalls_succ {α : Type} :
    ∀ (k : Nat) (rest channels : List α) (a : Option α) (h : k < rest.length),
      mcCalls (⟨channels, a, some rest⟩ : MultiChannel α) (k + 1) =
        .ok (⟨channels, some (rest.get ⟨k, h⟩), some (rest.drop (k + 1))⟩,
          rest.take (k + 1)) := by
  intro k
  induction k with
  | zero =>
    intro rest channels a h
    cases rest with
    | nil => simp at h
    | cons c rest2 => simp [mcCalls, mcWriteRead]
  | succ k ih =>
    intro rest channels a h
    cases rest with
    | nil => simp at h
    | cons c rest2 =>
      have h2 : k < rest2.length := by simpa using h
      rw [mcCalls, show mcWriteRead (⟨channels, a, some (c :: rest2)⟩ : MultiChannel α)
        = .ok (⟨channels, some c, some rest2⟩, c) from rfl]
      simp only [ih rest2 channels (some c) h2]
      simp

/-! ## Claim theorems -/

/-- C1: for every fixed-width descriptor (no length-variable array or string
field) and every well-typed value list — i.e. every value list that
`TxData.pack` serializes without raising — decoding the packed bytes with
`RxData.unpack` under the same descriptor returns exactly the packed
values: `RxData.unpack(TxData.pack(values)) == values`. -/
theorem claim_C1_roundtrip (cmdField : FCode) (argFields : List FCode)
    (cmdId : Int) (args : List Int) (bytes : List Nat)
    (hpack : tx_pack cmdField argFields cmdId args = some bytes) :
    rx_unpack (fixedDescr (cmdField :: argFields)) false bytes
      = some ((cmdId :: args).map DynVal.int) := by
  have h := unpackDynAux_structPackFixed (cmdField :: argFields) (cmdId :: args) bytes [] hpack
  simpa [rx_unpack, unpack_dynamic_sized, fixedDescr] using h

/-- C1 witness: packing command `0x89` with one 16-bit argument `1000`
gives bytes `89 03 E8`, which unpack back to `(0x89, 1000)`. -/
theorem claim_C1_roundtrip_witness :
    tx_pack .u8 [.u16] 137 [1000] = some [137, 3, 232] ∧
    rx_unpack (fixedDescr [.u8, .u16]) false [137, 3, 232]
      = some [DynVal.int 137, DynVal.int 1000] :=
  ⟨by decide, claim_C1_roundtrip .u8 [.u16] 137 [1000] [137, 3, 232] (by decide)⟩

/-- C2 counterexample: at the empty payload the claimed identity
`strip_and_check_crc(build_tx_data(payload, 0, crc), crc) == payload`
fails — `build_tx_data` returns `None` instead of a byte buffer
(`if not tx_data: return None`), and even deframing an empty buffer yields
the no-data result `None`, not the empty payload. -/
theorem claim_C2_empty_payload :
    build_tx_data [] 0 (some (fun _ => 0)) = none ∧
    strip_and_check_crc [] (fun _ => 0) = .ok none :=
  ⟨rfl, rfl⟩

/-- C2 (amended to non-empty payloads): for every non-empty payload and
every checksum function, deframing the CRC-framed bytes recovers the
original payload: `strip_and_check_crc(build_tx_data(payload, 0, crc), crc)
== payload`. -/
theorem claim_C2_roundtrip (payload : List Nat) (crc : List Nat → Nat)
    (h : payload ≠ []) :
    ∃ framed, build_tx_data payload 0 (some crc) = some framed ∧
      strip_and_check_crc framed crc = .ok (some payload) := by
  refine ⟨crcFrame crc payload, build_tx_data_eq_crcFrame payload crc h, ?_⟩
  unfold strip_and_check_crc
  rw [stripAux_crcFrame crc payload (crcFrame crc payload) 0 [] (by omega)
    (List.drop_zero _)]
  cases payload with
  | nil => exact absurd rfl h
  | cons a t => simp [Except.map]

/-- C2 witness: payload `03 E8` frames to `03 E8 crc` and deframes back. -/
theorem claim_C2_roundtrip_witness :
    build_tx_data [3, 232] 0 (some (fun _ => 0)) = some [3, 232, 0] ∧
    strip_and_check_crc [3, 232, 0] (fun _ => 0) = .ok (some [3, 232]) := by
  obtain ⟨framed, h1, h2⟩ := claim_C2_roundtrip [3, 232] (fun _ => 0) (by simp)
  have hb : build_tx_data [3, 232] 0 (some (fun _ => 0)) = some [3, 232, 0] := rfl
  have hf : framed = [3, 232, 0] := by
    have h3 := h1.symm.trans hb
    exact Option.some_injective _ h3
  exact ⟨hb, hf ▸ h2⟩

/-- C3: `strip_and_check_crc` fails at the first checksum position (index
`i` with `i % 3 == 2`) whose byte differs from the checksum of the two
preceding bytes, raising an `I2cChecksumError` that carries the received
byte, the recomputed expected checksum and the whole buffer; when every
checksum byte matches it strips them and returns the remaining data, or the
no-data result `None` when nothing remains. -/
theorem claim_C3_strip_characterization (data : List Nat) (crc : List Nat → Nat) :
    strip_and_check_crc data crc =
      match firstMismatch data crc with
      | some j => .error ⟨data.getD j 0, crc (pySlice data (j - 2) j), data⟩
      | none =>
        .ok (if (nonCheckBytes data).isEmpty then none else some (nonCheckBytes data)) := by
  unfold strip_and_check_crc firstMismatch nonCheckBytes
  rw [stripAux_characterization crc data data 0 [] (List.drop_zero data)]
  cases firstMismatchAux crc data data 0 with
  | some j => rfl
  | none => simp [Except.map]

/-- C4: SHDLC response validation — a wrong echoed address fails with a
`ShdlcResponseError` naming both addresses; a wrong echoed command (with a
matching address) fails with a `ShdlcResponseError` naming both command
ids; a status byte with non-zero low seven bits fails with a
`ShdlcDeviceError` carrying exactly `rx_state & 0x7F`; when the low seven
bits are zero — including a status of `0x80`, whose set top bit is only
logged, and a status of `0x00` — the exchange succeeds. -/
theorem claim_C4_shdlc_validation (shdlcAddr cmdId : Nat) (ignoreErrors : Bool)
    (rxAddr rxCmd rxState : Nat) (rxData : List Nat)
    (response : Option (Descr × Bool)) :
    (rxAddr ≠ shdlcAddr →
      shdlc_write_read shdlcAddr cmdId ignoreErrors rxAddr rxCmd rxState rxData response
        = .error (.responseMismatchAddr rxAddr shdlcAddr)) ∧
    (rxAddr = shdlcAddr → rxCmd ≠ cmdId →
      shdlc_write_read shdlcAddr cmdId ignoreErrors rxAddr rxCmd rxState rxData response
        = .error (.responseMismatchCmd rxCmd cmdId)) ∧
    (rxAddr = shdlcAddr → rxCmd = cmdId → rxState &&& 0x7F ≠ 0 →
      shdlc_write_read shdlcAddr cmdId ignoreErrors rxAddr rxCmd rxState rxData response
        = .error (.deviceError (rxState &&& 0x7F))) ∧
    (rxAddr = shdlcAddr → rxCmd = cmdId → rxState &&& 0x7F = 0 →
      shdlc_write_read shdlcAddr cmdId ignoreErrors rxAddr rxCmd rxState rxData none
        = .ok (.raw rxData)) := by
  refine ⟨?_, ?_, ?_, ?_⟩ <;> intros <;> simp [shdlc_write_read, *]

/-- C4 witness: concrete exchanges — address echo `1` for `0` fails,
command echo `18` for `17` fails, status `0x85` fails with device error
code `5`, status `0x80` and status `0x00` succeed. -/
theorem claim_C4_shdlc_validation_witness :
    shdlc_write_read 0 17 false 1 17 0 [] none = .error (.responseMismatchAddr 1 0) ∧
    shdlc_write_read 0 17 false 0 18 0 [] none = .error (.responseMismatchCmd 18 17) ∧
    shdlc_write_read 0 17 false 0 17 133 [] none = .error (.deviceError 5) ∧
    shdlc_write_read 0 17 false 0 17 128 [7] none = .ok (.raw [7]) ∧
    shdlc_write_read 0 17 false 0 17 0 [7] none = .ok (.raw [7]) := by
  refine ⟨?_, ?_, ?_, ?_, ?_⟩
  · exact (claim_C4_shdlc_validation 0 17 false 1 17 0 [] none).1 (by decide)
  · exact (claim_C4_shdlc_validation 0 17 false 0 18 0 [] none).2.1 rfl (by decide)
  · exact (claim_C4_shdlc_validation 0 17 false 0 17 133 [] none).2.2.1 rfl rfl (by decide)
  · exact (claim_C4_shdlc_validation 0 17 false 0 17 128 [7] none).2.2.2 rfl rfl (by decide)
  · exact (claim_C4_shdlc_validation 0 17 false 0 17 0 [7] none).2.2.2 rfl rfl (by decide)

/-- C5: within one open transaction the `k`-th `write_read` call (for
`k ≤ N`) dispatches to the channel at index `k-1` in construction order and
records it as the active channel; after `N` calls the iterator holds no
further channel, so one more call raises the `StopIteration` usage error;
and `__exit__` always clears both the active-channel pointer and the
iterator and returns `False` when an exception occurred, re-raising the
original exception rather than masking it. -/
theorem claim_C5_multichannel {α : Type} (cs : List α) :
    (∀ (k : Nat) (h : k < cs.length),
      mcCalls (mcEnter (mkMultiChannel cs)) (k + 1) =
        .ok (⟨cs, some (cs.get ⟨k, h⟩), some (cs.drop (k + 1))⟩, cs.take (k + 1))) ∧
    (∃ mN, mcCalls (mcEnter (mkMultiChannel cs)) cs.length = .ok (mN, cs) ∧
      mcWriteRead mN = .error .stopIteration) ∧
    (∀ (m : MultiChannel α) (excOccurred : Bool),
      mcExit m excOccurred =
        ({ m with activeChannel := none, channelIterator := none }, !excOccurred)) := by
  refine ⟨?_, ?_, ?_⟩
  · intro k h
    exact mcCalls_succ k cs cs none h
  · cases cs with
    | nil =>
      exact ⟨⟨[], none, some []⟩, rfl, rfl⟩
    | cons c rest =>
      have hlt : (c :: rest).length - 1 < (c :: rest).length := by simp
      have h1 := mcCalls_succ ((c :: rest).length - 1) (c :: rest) (c :: rest) none hlt
      have heq : (c :: rest).length - 1 + 1 = (c :: rest).length := by simp
      rw [heq, List.drop_length, List.take_length] at h1
      exact ⟨_, h1, rfl⟩
  · intro m excOccurred
    rfl

/-- C5 witness: three channels are consumed in order `0,1,2` by three
calls, a fourth call fails with `StopIteration`, and closing after an
exception clears both fields and does not suppress the exception. -/
theorem claim_C5_multichannel_witness :
    mcCalls (mcEnter (mkMultiChannel [10, 20, 30])) 3 =
      .ok (⟨[10, 20, 30], some 30, some []⟩, [10, 20, 30]) ∧
    mcWriteRead (⟨[10, 20, 30], some 30, some []⟩ : MultiChannel Nat)
      = .error .stopIteration ∧
    mcExit (⟨[10, 20, 30], some 30, some []⟩ : MultiChannel Nat) true
      = (⟨[10, 20, 30], none, none⟩, false) := by
  refine ⟨?_, rfl, rfl⟩
  have h := (claim_C5_multichannel [10, 20, 30]).1 2 (by norm_num)
  simpa using h

/-- C6: the I2C channel honours `ignore_errors` — a failing exchange
(including deframing and decoding, which run inside `connection.execute`)
is swallowed into a `None` result — but `ShdlcChannel.write_read` never
reads its `ignore_errors` parameter: with `ignore_errors=True` an address
mismatch still raises, contradicting the documented behaviour. -/
theorem claim_C6_ignore_errors_eval :
    i2c_write_read_result (Except.error () : Except Unit (Option ShdlcResult)) true
      = .ok none ∧
    i2c_write_read_result (Except.error () : Except Unit (Option ShdlcResult)) false
      = .error () ∧
    shdlc_write_read 0 5 true 1 5 0 [] none = .error (.responseMismatchAddr 1 0) :=
  ⟨rfl, rfl, rfl⟩

/-- C7: dynamic decoding of a fixed 16-bit field followed by a string field
of maximum length 8 over data whose string region is `abc` plus five zero
bytes yields the string `abc` (the scan stops at the first zero byte); the
same data under the array-of-bytes descriptor `8B` yields all eight raw
bytes with no early termination; and a string field for which zero elements
are found yields an empty value rather than an error. -/
theorem claim_C7_dynamic_decode (v : Int) (h0 : 0 ≤ v) (h1 : v < 2 ^ 16) :
    unpack_dynamic_sized ⟨[(none, .u16), (some 8, .sc)]⟩ false
        (encodeInt 2 v ++ [97, 98, 99, 0, 0, 0, 0, 0])
      = some [.int v, .str [97, 98, 99]] ∧
    unpack_dynamic_sized ⟨[(none, .u16), (some 8, .u8)]⟩ false
        (encodeInt 2 v ++ [97, 98, 99, 0, 0, 0, 0, 0])
      = some [.int v, .arr [97, 98, 99, 0, 0, 0, 0, 0]] ∧
    unpack_dynamic_sized ⟨[(none, .u16), (some 8, .sc)]⟩ false (encodeInt 2 v)
      = some [.int v, .str []] := by
  have hp : (encodeInt 2 v).length = 2 := toBytesBE_length 2 _
  have hv : unpackFieldVal .u16 (encodeInt 2 v) = v := by
    show decodeInt false 2 (encodeInt 2 v) = v
    refine decodeInt_encodeInt_unsigned 2 v h0 ?_
    norm_num
    omega
  have hdrop : ∀ s2 : List Nat, ((encodeInt 2 v ++ s2).drop 2 = s2) := by
    intro s2
    rw [← hp]
    exact List.drop_left _ _
  have htake : ∀ s2 : List Nat, ((encodeInt 2 v ++ s2).take 2 = encodeInt 2 v) := by
    intro s2
    rw [← hp]
    exact List.take_left _ _
  have hlen : ∀ s2 : List Nat, (encodeInt 2 v ++ s2).length = 2 + s2.length := by
    intro s2
    simp [hp]
  have htake0 : (encodeInt 2 v).take 2 = encodeInt 2 v :=
    List.take_of_length_le (by omega)
  have hdrop0 : (encodeInt 2 v).drop 2 = [] :=
    List.drop_eq_nil_of_le (by omega)
  have harr : chunkVals .u8 1 8 [97, 98, 99, 0, 0, 0, 0, 0]
      = [97, 98, 99, 0, 0, 0, 0, 0] := by decide
  refine ⟨?_, ?_, ?_⟩
  · simp [unpack_dynamic_sized, unpackDynAux, pySlice, hdrop, htake, hlen, hv,
      scanCount, fcodeSize]
  · simp [unpack_dynamic_sized, unpackDynAux, pySlice, hdrop, htake, hlen, hv,
      scanCount, fcodeSize, harr]
  · simp [unpack_dynamic_sized, unpackDynAux, pySlice, hp, htake0, hdrop0, hv,
      scanCount, chunkVals, fcodeSize]

/-- C7 witness: the three decodes at the concrete 16-bit value `1000`. -/
theorem claim_C7_dynamic_decode_witness :
    unpack_dynamic_sized ⟨[(none, .u16), (some 8, .sc)]⟩ false
        (encodeInt 2 1000 ++ [97, 98, 99, 0, 0, 0, 0, 0])
      = some [.int 1000, .str [97, 98, 99]] :=
  (claim_C7_dynamic_decode 1000 (by norm_num) (by norm_num)).1

/-- C8: at the failing input — descriptor `>2BB` (a two-byte variable array
followed by one fixed byte) over the bytes `01 02 03` — the decoder reads
the trailing fixed field at offset 1 (yielding `2`, a byte inside the
array) instead of offset 2 (which holds `3`), because the loop advances
`data_pos` by only `elem_size` after the variable field. -/
theorem claim_C8_cursor_eval :
    unpack_dynamic_sized ⟨[(some 2, .u8), (none, .u8)]⟩ false [1, 2, 3]
      = some [.arr [1, 2], .int 2] ∧
    unpack_dynamic_sized ⟨[(some 2, .u8), (none, .u8)]⟩ false [1, 2, 3]
      ≠ some [.arr [1, 2], .int 3] := by
  refine ⟨by decide, by decide⟩

/-- C9 counterexample: with no response descriptor `I2cChannel.write_read`
passes `rx_len = None` to the request, not the length zero. -/
theorem claim_C9_no_response_none :
    i2c_expected_rx_length none true = none ∧
    i2c_expected_rx_length none true ≠ some 0 :=
  ⟨rfl, by decide⟩

/-- C9 (amended: the no-response case yields no length (`None`) rather than
zero): with a response descriptor and a configured CRC calculator the
expected receive length is `3 * rx_length // 2` of the static descriptor
length; with no response descriptor no length is set. -/
theorem claim_C9_expected_length (d : Descr) (crcPresent : Bool) :
    i2c_expected_rx_length (some (rx_length d)) true = some (3 * rx_length d / 2) ∧
    i2c_expected_rx_length none crcPresent = none := by
  constructor
  · rfl
  · rfl

/-- C10: `MultiChannel.strip_protocol` invokes the strip of the active
sub-channel but discards the result and always returns `None`. -/
theorem claim_C10_strip_protocol_none
    (subStrip : List Nat → Option (List Nat)) (data : List Nat) :
    mc_strip_protocol subStrip data = none :=
  rfl

end SensirionAdapters
